import Mathlib

/-!
Verification of the resume-analysis backend (`src/main.py`).

Python strings are modelled as lists of code points (`Str`), JSON values as
the inductive `JVal` (JSON numbers as rationals), and Python dicts as
association lists in insertion order.  The generative-model call and the
`json.loads` parser are external collaborators and are passed in as oracles;
everything else is translated directly from the source.
-/

/-- Python strings, as lists of code points (`len`, slicing and `+` on Python
strings correspond to `List.length`, `List.take`/`List.drop` and `++`). -/
abbrev Str := List Char

/-- JSON values as produced by `json.loads`.  Numbers are modelled as
rationals; Python `bool` is a separate constructor (it is a subclass of
`int`, which matters for the `isinstance` checks below). -/
inductive JVal where
  | null : JVal
  | bool (b : Bool) : JVal
  | num (q : ℚ) : JVal
  | str (s : Str) : JVal
  | arr (xs : List JVal) : JVal
  | obj (fields : List (Str × JVal)) : JVal

/-- A Python dict (a parsed JSON object): key/value pairs in insertion order. -/
abbrev JObj := List (Str × JVal)

/-- Dict lookup (`d[k]` / `k in d`): first binding of the key. -/
def getKey (k : Str) : JObj → Option JVal
  | [] => none
  | (k', v) :: r => if k' = k then some v else getKey k r

/-- Dict assignment `d[k] = v`: replaces the binding in place if the key is
present, otherwise appends it (Python dicts keep insertion order). -/
def setKey (k : Str) (v : JVal) : JObj → JObj
  | [] => [(k, v)]
  | (k', v') :: r => if k' = k then (k', v) :: r else (k', v') :: setKey k v r

/-- `isinstance(v, (int, float))` — true for JSON numbers and for booleans
(Python `bool` is a subclass of `int`). -/
def isNumericPy : JVal → Bool
  | .num _ => true
  | .bool _ => true
  | _ => false

/-- `isinstance(v, list)`. -/
def isListPy : JVal → Bool
  | .arr _ => true
  | _ => false

/-- `isinstance(v, str)`. -/
def isStrPy : JVal → Bool
  | .str _ => true
  | _ => false

/-- Numeric value of a JSON value for Python comparisons
(`True == 1`, `False == 0`); only applied to values passing `isNumericPy`
in the code below. -/
def ratOf : JVal → ℚ
  | .num q => q
  | .bool b => if b then 1 else 0
  | _ => 0

def msKey : Str := "match_score".toList
def eyKey : Str := "experience_years".toList
def recKey : Str := "recommendation".toList
def cnKey : Str := "candidate_name".toList
def errKey : Str := "error".toList
def sumKey : Str := "summary".toList

/-- `required_fields = ['match_score', 'experience_years', 'recommendation']`
(main.py line 201). -/
def requiredKeys : List Str := [msKey, eyKey, recKey]

/-- The four array fields validated at main.py line 225. -/
def arrKeys : List Str :=
  ["matching_skills".toList, "missing_skills".toList,
   "strengths".toList, "weaknesses".toList]

/-- The allowed `recommendation` values (main.py line 220). -/
def recValues : List JVal :=
  [.str ("qualified".toList), .str ("review".toList), .str ("not_qualified".toList)]

/-- The Python membership test
`result['recommendation'] in ['qualified', 'review', 'not_qualified']`:
equality against each element of the list (only a string can be equal to a
string in Python). -/
def isAllowedRec (v : JVal) : Bool :=
  match v with
  | .str s =>
      s == ("qualified".toList) || s == ("review".toList) || s == ("not_qualified".toList)
  | _ => false

/-- The error object returned for a missing required field
(main.py lines 205-209), and with other messages by the guard and
API-error paths: `{"error": msg, "candidate_name": name, "match_score": 0}`. -/
def errorObj (msg name : Str) : JObj :=
  [(errKey, .str msg), (cnKey, .str name), (msKey, .num 0)]

/-- `match_score` is kept iff it is numeric and within `[0, 100]`
(main.py line 212; the `or` in the source short-circuits, so the
comparison is only evaluated on numeric values). -/
def validScore (v : JVal) : Prop :=
  isNumericPy v = true ∧ 0 ≤ ratOf v ∧ ratOf v ≤ 100

instance (v : JVal) : Decidable (validScore v) := by
  unfold validScore; infer_instance

/-- `experience_years` is kept iff it is numeric and nonnegative
(main.py line 216). -/
def validYears (v : JVal) : Prop :=
  isNumericPy v = true ∧ 0 ≤ ratOf v

instance (v : JVal) : Decidable (validYears v) := by
  unfold validYears; infer_instance

/-- main.py lines 212-214: default `match_score` to 50 unless numeric in
`[0, 100]`.  The `none` branch is unreachable (the required-field check has
already passed). -/
def coerceScore (r : JObj) : JObj :=
  match getKey msKey r with
  | some v => if validScore v then r else setKey msKey (.num 50) r
  | none => r

/-- main.py lines 216-218: default `experience_years` to 0 unless numeric
and nonnegative.  The `none` branch is unreachable. -/
def coerceYears (r : JObj) : JObj :=
  match getKey eyKey r with
  | some v => if validYears v then r else setKey eyKey (.num 0) r
  | none => r

/-- main.py lines 220-222: default `recommendation` to `"review"` unless it
is one of the three allowed strings.  The `none` branch is unreachable. -/
def coerceRec (r : JObj) : JObj :=
  match getKey recKey r with
  | some v => if isAllowedRec v = true then r else setKey recKey (.str ("review".toList)) r
  | none => r

/-- main.py lines 225-227: replace an absent or non-list array field by `[]`. -/
def coerceArr (k : Str) (r : JObj) : JObj :=
  match getKey k r with
  | some v => if isListPy v = true then r else setKey k (.arr []) r
  | none => setKey k (.arr []) r

/-- main.py lines 230-232: replace an absent or non-string `summary` by
`"Analysis completed"`. -/
def coerceSummary (r : JObj) : JObj :=
  match getKey sumKey r with
  | some v => if isStrPy v = true then r else setKey sumKey (.str ("Analysis completed".toList)) r
  | none => setKey sumKey (.str ("Analysis completed".toList)) r

/-- The `for field in required_fields` loop (main.py lines 202-209): the
first required field missing from the parsed object, if any. -/
def findMissing (r : JObj) : Option Str :=
  requiredKeys.find? (fun k => (getKey k r).isNone)

/-- All three required fields are present. -/
def requiredPresent (r : JObj) : Prop := findMissing r = none

instance (r : JObj) : Decidable (requiredPresent r) := by
  unfold requiredPresent; infer_instance

/-- The parse-success path of `analyze_resume_match` (main.py lines
196-234): reject the object if a required field is missing, otherwise
coerce each field in source order and return the mutated object.  The
caller-supplied `name` is only used on the missing-field error path. -/
def normalizeParsed (name : Str) (r : JObj) : JObj :=
  match findMissing r with
  | some k => errorObj (("AI response missing required field: ".toList) ++ k) name
  | none =>
      coerceSummary (arrKeys.foldl (fun acc k => coerceArr k acc)
        (coerceRec (coerceYears (coerceScore r))))

/-- The fallback result returned when the model reply is not parseable JSON
(main.py lines 241-252), in source field order. -/
def fallbackResult (name : Str) : JObj :=
  [(cnKey, .str name),
   (msKey, .num 50),
   (eyKey, .num 0),
   ("matching_skills".toList, .arr []),
   ("missing_skills".toList, .arr []),
   ("strengths".toList, .arr [.str ("Analysis completed".toList)]),
   ("weaknesses".toList, .arr [.str ("Unable to parse detailed analysis".toList)]),
   (recKey, .str ("review".toList)),
   (sumKey, .str ("Analysis completed but detailed parsing failed".toList)),
   (errKey, .str ("JSON parsing failed, using fallback analysis".toList))]

/-- Whether the first argument starts with the second (`str.startswith`). -/
def strStarts : Str → Str → Bool
  | _, [] => true
  | [], _ :: _ => false
  | c :: cs, p :: ps => c == p && strStarts cs ps

/-- Whether the first argument ends with the second (`str.endswith`). -/
def strEnds (s pat : Str) : Bool := strStarts s.reverse pat.reverse

/-- Python slicing `s[:-n]`. -/
def dropRightN (n : ℕ) (s : Str) : Str := s.take (s.length - n)

/-- `str.strip()`: remove leading and trailing whitespace (modelled with
ASCII whitespace; the claims do not depend on the exact whitespace set). -/
def trimStr (s : Str) : Str :=
  ((s.dropWhile Char.isWhitespace).reverse.dropWhile Char.isWhitespace).reverse

/-- The markdown-fence clean-up of main.py lines 186-193, applied to the
already-stripped model reply: drop a leading ```json marker (7 characters),
then a trailing ``` marker, then a remaining leading ``` marker, and strip
whitespace again. -/
def stripFences (s : Str) : Str :=
  let t1 := if strStarts s ("```json".toList) then s.drop 7 else s
  let t2 := if strEnds t1 ("```".toList) then dropRightN 3 t1 else t1
  let t3 := if strStarts t2 ("```".toList) then t2.drop 3 else t2
  trimStr t3

/-- main.py lines 128-130: resume text longer than 15000 characters is cut
to 15000 characters and suffixed with an ellipsis. -/
def truncResume (s : Str) : Str :=
  if s.length > 15000 then s.take 15000 ++ ("...".toList) else s

/-- main.py lines 132-134: job description longer than 8000 characters is
cut to 8000 characters and suffixed with an ellipsis. -/
def truncJob (s : Str) : Str :=
  if s.length > 8000 then s.take 8000 ++ ("...".toList) else s

/-- The fixed prompt text before the job description (main.py line 136). -/
def promptHead : Str :=
  ("\nYou are an expert HR recruiter. Analyze the following resume against the job description and provide a comprehensive evaluation.\n\nJOB DESCRIPTION:\n").toList

/-- The fixed prompt text between the job description and the resume. -/
def promptMid : Str := ("\n\nRESUME:\n").toList

/-- The fixed prompt text between the resume and the candidate name. -/
def promptTail1 : Str :=
  ("\n\nPlease provide a detailed analysis in the following JSON format:\n\x7b\n    \"candidate_name\": \"").toList

/-- The fixed prompt text after the candidate name (worked example plus the
numbered rules, main.py lines 147-165). -/
def promptTail2 : Str :=
  ("\",\n    \"match_score\": 75,\n    \"experience_years\": 5,\n    \"matching_skills\": [\"Python\", \"JavaScript\", \"React\"],\n    \"missing_skills\": [\"AWS\", \"Docker\"],\n    \"strengths\": [\"Strong technical background\", \"Good communication skills\"],\n    \"weaknesses\": [\"Limited cloud experience\", \"No DevOps experience\"],\n    \"recommendation\": \"review\",\n    \"summary\": \"Good technical candidate with room for growth\"\n\x7d\n\nImportant rules:\n1. match_score must be a number between 0-100\n2. experience_years must be a number (estimate if not clear)\n3. recommendation must be exactly one of: \"qualified\", \"review\", \"not_qualified\"\n4. All arrays must contain strings\n5. Return ONLY the JSON object, no additional text or formatting\n\n").toList

/-- The f-string of main.py lines 136-165: the prompt embedding a job
description, a resume text and the candidate name. -/
def buildPrompt (jd res name : Str) : Str :=
  promptHead ++ jd ++ promptMid ++ res ++ promptTail1 ++ name ++ promptTail2

/-- The prompt actually sent for given inputs: both texts are truncated
before prompt construction (main.py lines 124-134). -/
def promptFor (jd res name : Str) : Str :=
  buildPrompt (truncJob jd) (truncResume res) name

/-- Outcome of `model.generate_content(prompt)` followed by
`response.text`: either the raw reply text or an exception message. -/
inductive ModelReply where
  | ok (text : Str) : ModelReply
  | apiError (msg : Str) : ModelReply

/-- `analyze_resume_match` (main.py lines 102-261).  The generative model
and `json.loads` are external collaborators, passed as oracles: `model`
maps the prompt to a reply or an API exception, and `parseJson` maps the
cleaned reply text to a parsed JSON object, or `none` for a
`json.JSONDecodeError` (the claims only concern replies that parse as JSON
objects or fail to parse). -/
def analyze_resume_match (jd res name : Str) (model : Str → ModelReply)
    (parseJson : Str → Option JObj) : JObj :=
  if res.length < 50 then
    errorObj ("Resume text too short to analyze".toList) name
  else if jd.length < 50 then
    errorObj ("Job description too short to analyze".toList) name
  else
    match model (promptFor jd res name) with
    | .apiError m => errorObj (("AI service error: ".toList) ++ m) name
    | .ok text =>
        match parseJson (stripFences (trimStr text)) with
        | none => fallbackResult name
        | some r => normalizeParsed name r

/-- Outcome of `extract_text_from_file` for one uploaded file (the PDF and
UTF-8 decoding itself is delegated to external libraries, so the outcome is
supplied with the file): either extracted text or an error message. -/
inductive ExtractResult where
  | ok (text : Str) : ExtractResult
  | err (msg : Str) : ExtractResult

/-- One element of `request.files.getlist('resumes')`. -/
structure FileUpload where
  filename : Str
  extract : ExtractResult

/-- The multipart form of a `POST /analyze-resumes` request;
`request.form.get` yields `none` for a missing field. -/
structure BatchRequest where
  jobTitle : Option Str
  jobDescription : Option Str
  files : List FileUpload

/-- Outcome of the `jobs` insert (main.py lines 290-301): data with an id,
data missing, or a raised exception. -/
inductive JobInsert where
  | ok (jobId : ℕ) : JobInsert
  | noData : JobInsert
  | exc (msg : Str) : JobInsert

/-- Outcome of a `candidates` insert (main.py lines 341-362). -/
inductive CandInsert where
  | ok (candId : ℕ) : CandInsert
  | noData : CandInsert
  | exc (msg : Str) : CandInsert

/-- The external collaborators of the batch handler: the database (the
candidate-insert outcome is indexed by file position; the
`analysis_results` insert outcome is irrelevant because its exception is
swallowed at main.py lines 388-390) and the model/parser oracles. -/
structure HandlerOracles where
  jobInsert : JobInsert
  candInsert : ℕ → CandInsert
  model : Str → ModelReply
  parseJson : Str → Option JObj

/-- Python `int()` on a rational: truncation toward zero. -/
def truncQ (q : ℚ) : ℤ := if 0 ≤ q then ⌊q⌋ else -⌊-q⌋

/-- `int(v)` for the numeric JSON values this is applied to (the handler
only applies it to values the normalizer has validated as numeric). -/
def pyIntOf (v : JVal) : ℤ := truncQ (ratOf v)

/-- The `analysis_record` dict built at main.py lines 371-383. -/
structure AnalysisRecord where
  jobId : ℕ
  candId : ℕ
  match_score : ℤ
  experience_years : ℤ
  matching_skills : JVal
  missing_skills : JVal
  strengths : JVal
  weaknesses : JVal
  recommendation : JVal
  summary : JVal

/-- main.py lines 371-383: the persisted record, with `int()` applied to
the two numeric fields and `dict.get` defaults for the rest. -/
def mkAnalysisRecord (jobId candId : ℕ) (analysis : JObj) : AnalysisRecord :=
  ⟨jobId, candId,
   pyIntOf ((getKey msKey analysis).getD (.num 0)),
   pyIntOf ((getKey eyKey analysis).getD (.num 0)),
   (getKey ("matching_skills".toList) analysis).getD (.arr []),
   (getKey ("missing_skills".toList) analysis).getD (.arr []),
   (getKey ("strengths".toList) analysis).getD (.arr []),
   (getKey ("weaknesses".toList) analysis).getD (.arr []),
   (getKey recKey analysis).getD (.str ("review".toList)),
   (getKey sumKey analysis).getD (.str [])⟩

/-- A database write attempted by the handler, in program order. -/
inductive DBEffect where
  | insertJob : DBEffect
  | insertCandidate (name resumeText : Str) : DBEffect
  | insertAnalysis (record : AnalysisRecord) : DBEffect

/-- `allowed_file` (main.py lines 40-41): the filename contains a dot and
its lower-cased extension (the part after the last dot, as produced by
`rsplit('.', 1)`) is `pdf` or `txt`. -/
def extOf (f : Str) : Str := (f.reverse.takeWhile (fun c => c ≠ '.')).reverse

def lowerStr (s : Str) : Str := s.map Char.toLower

def allowed_file (f : Str) : Bool :=
  f.contains '.' &&
    (lowerStr (extOf f) == ("pdf".toList) || lowerStr (extOf f) == ("txt".toList))

/-- One step of Python `str.title()`: an alphabetic character is upper-cased
after a non-alphabetic character and lower-cased otherwise. -/
def titleGo : Bool → Str → Str
  | _, [] => []
  | prev, c :: cs =>
      if c.isAlpha then (if prev then c.toLower else c.toUpper) :: titleGo true cs
      else c :: titleGo false cs

def titleCase (s : Str) : Str := titleGo false s

/-- `str.replace(a, b)` for single characters. -/
def replaceCh (a b : Char) (s : Str) : Str :=
  s.map (fun c => if c = a then b else c)

/-- The filename without its extension, as `os.path.splitext(f)[0]` for
ordinary upload names (names consisting only of a dotted extension are
accepted by `allowed_file` but have no bearing on any claim). -/
def splitextBase (f : Str) : Str :=
  if f.contains '.' then f.take (f.length - (extOf f).length - 1) else f

/-- main.py line 317: candidate display name derived from the filename
(extension stripped, underscores and hyphens replaced by spaces,
word-capitalized). -/
def candidateNameOf (f : Str) : Str :=
  titleCase (replaceCh '-' ' ' (replaceCh '_' ' ' (splitextBase f)))

/-- The per-file error entry appended by the handler (main.py lines
324-328, 345-349 and 357-361): `{"candidate_name": ..., "error": ...,
"match_score": 0}`. -/
def entryError (name msg : Str) : JObj :=
  [(cnKey, .str name), (errKey, .str msg), (msKey, .num 0)]

/-- The loop body of main.py lines 312-395 for one file: the result entry
appended for it (`none` when the file is silently skipped) together with
the database writes it attempts. -/
def processFile (jd : Str) (jobId : ℕ) (o : HandlerOracles) (i : ℕ)
    (f : FileUpload) : Option JObj × List DBEffect :=
  if f.filename ≠ [] ∧ allowed_file f.filename = true then
    match f.extract with
    | .err e => (some (entryError (candidateNameOf f.filename) e), [])
    | .ok text =>
        let name := candidateNameOf f.filename
        let candEff := DBEffect.insertCandidate name (text.take 50000)
        match o.candInsert i with
        | .exc m => (some (entryError name (("Database error: ".toList) ++ m)), [candEff])
        | .noData => (some (entryError name ("Failed to save candidate data".toList)), [candEff])
        | .ok candId =>
            let analysis := analyze_resume_match jd text name o.model o.parseJson
            if (getKey errKey analysis).isNone = true then
              (some analysis,
               [candEff, DBEffect.insertAnalysis (mkAnalysisRecord jobId candId analysis)])
            else
              (some analysis, [candEff])
  else (none, [])

/-- The whole file loop: per-file entries in file order, and the attempted
database writes in program order. -/
def processFiles (jd : Str) (jobId : ℕ) (o : HandlerOracles) :
    ℕ → List FileUpload → List JObj × List DBEffect
  | _, [] => ([], [])
  | i, f :: fs =>
      let pe := processFile jd jobId o i f
      let pr := processFiles jd jobId o (i + 1) fs
      (pe.1.toList ++ pr.1, pe.2 ++ pr.2)

/-- The sort key of main.py line 398: `x.get('match_score', 0)`. -/
def sortKey (e : JObj) : ℚ := ratOf ((getKey msKey e).getD (.num 0))

/-- `results.sort(key=lambda x: x.get('match_score', 0), reverse=True)`
(main.py line 398): a stable sort by key, descending.  Modelled as
insertion sort with the relation `sortKey b ≤ sortKey a`, which places each
element before the first earlier-sorted element of less-or-equal key and
therefore keeps equal-key elements in their original order, as Python's
stable `list.sort` does. -/
def sortDesc (l : List JObj) : List JObj :=
  List.insertionSort (fun a b => sortKey b ≤ sortKey a) l

/-- Python truthiness of an optional form field: missing or empty. -/
def falsy : Option Str → Bool
  | none => true
  | some s => s.isEmpty

/-- The HTTP outcome of `analyze_resumes` (ignoring fields no claim
mentions, such as the timestamp): a 400, a 500, or a 200 payload. -/
inductive BatchResponse where
  | badRequest (msg : Str) : BatchResponse
  | serverError (msg : Str) : BatchResponse
  | ok (jobId : ℕ) (jobTitle : Str) (total : ℕ) (results : List JObj) : BatchResponse

/-- The `POST /analyze-resumes` handler (main.py lines 263-413): validate
the two form fields, create the job record, reject if no files were
uploaded, process the files, and return the sorted results.  The returned
list records the database writes attempted, in order. -/
def analyze_resumes (req : BatchRequest) (o : HandlerOracles) :
    BatchResponse × List DBEffect :=
  if falsy req.jobTitle || falsy req.jobDescription then
    (.badRequest ("Missing job title or description".toList), [])
  else
    match o.jobInsert with
    | .exc m => (.serverError (("Database connection failed: ".toList) ++ m), [.insertJob])
    | .noData => (.serverError ("Database error: Failed to create job record".toList), [.insertJob])
    | .ok jobId =>
        if req.files.isEmpty then
          (.badRequest ("No resume files uploaded".toList), [.insertJob])
        else
          let pr := processFiles (req.jobDescription.getD []) jobId o 0 req.files
          (.ok jobId (req.jobTitle.getD []) pr.1.length (sortDesc pr.1), .insertJob :: pr.2)

/-- The eight fields validated or defaulted by the parse-success path. -/
def validatedKeys : List Str :=
  [msKey, eyKey, recKey,
   "matching_skills".toList, "missing_skills".toList,
   "strengths".toList, "weaknesses".toList, sumKey]

def demoJD : Str := ("We need a senior backend engineer with Python and SQL.").toList

def demoText : Str :=
  ("Experienced Python developer with six years of backend work.").toList

def demoReplyObj : JObj :=
  [(msKey, .num 80), (eyKey, .num 4), (recKey, .str ("qualified".toList))]

def demoOracles : HandlerOracles :=
  ⟨.ok 7, fun _ => .ok 3, fun _ => .ok [], fun _ => some demoReplyObj⟩

def demoFile : FileUpload := ⟨("alice_smith.txt").toList, .ok demoText⟩

def demoReq : BatchRequest := ⟨some ("Engineer".toList), some demoJD, [demoFile]⟩

def demoRecord : AnalysisRecord :=
  mkAnalysisRecord 7 3 (analyze_resume_match demoJD demoText
    (candidateNameOf (("alice_smith.txt").toList)) demoOracles.model demoOracles.parseJson)

def c1obj : JObj :=
  [(cnKey, .str ("Bob".toList)), (msKey, .num 80), (eyKey, .num 2),
   (recKey, .str ("review".toList))]

def c3obj : JObj := [(msKey, .num 70), (eyKey, .num 3)]

def c3wobj : JObj :=
  [(msKey, .num 10), (eyKey, .num 1), (recKey, .str ("banana".toList))]

def c5obj : JObj := [(msKey, .num 75)]

def c5wobj : JObj :=
  [(msKey, .num 88), (eyKey, .num 1), (recKey, .str ("review".toList))]

def c10obj : JObj := [(("notes".toList), .str ("keep me".toList))]

def c10wobj : JObj :=
  [(msKey, .num 60), (eyKey, .num 2), (recKey, .str ("review".toList)),
   (("notes".toList), .str ("keep me".toList))]

def c4req : BatchRequest := ⟨some ("Engineer".toList), some demoJD, []⟩

/-- The per-file entry list the handler builds before sorting (the value of
`results` at main.py line 397, just before the sort). -/
def batchEntries (req : BatchRequest) (o : HandlerOracles) (jobId : ℕ) : List JObj :=
  (processFiles (req.jobDescription.getD []) jobId o 0 req.files).1

/-! ### Association-list lemmas -/

theorem getKey_setKey_self (k : Str) (v : JVal) (r : JObj) :
    getKey k (setKey k v r) = some v := by
  induction r with
  | nil => simp [getKey, setKey]
  | cons p t ih =>
      obtain ⟨k', v'⟩ := p
      by_cases h : k' = k
      · simp [getKey, setKey, h]
      · simp [getKey, setKey, h, ih]

theorem getKey_setKey_ne (k k' : Str) (v : JVal) (r : JObj) (h : k' ≠ k) :
    getKey k' (setKey k v r) = getKey k' r := by
  have hkk : k ≠ k' := fun hh => h hh.symm
  induction r with
  | nil => simp [getKey, setKey, hkk]
  | cons p t ih =>
      obtain ⟨k'', v''⟩ := p
      by_cases hk : k'' = k
      · have h1 : k'' ≠ k' := fun hh => h (hh.symm.trans hk)
        simp [getKey, setKey, hk, h1, hkk]
      · by_cases hk' : k'' = k'
        · simp [getKey, setKey, hk, hk', h]
        · simp [getKey, setKey, hk, hk', ih]

/-! ### Field-coercion lemmas: keys other than the coerced one are untouched -/

theorem getKey_coerceScore_ne (k : Str) (r : JObj) (h : k ≠ msKey) :
    getKey k (coerceScore r) = getKey k r := by
  unfold coerceScore
  cases hv : getKey msKey r with
  | none => rfl
  | some v =>
      by_cases hs : validScore v
      · simp [hs]
      · simp [hs, getKey_setKey_ne _ _ _ _ h]

theorem getKey_coerceYears_ne (k : Str) (r : JObj) (h : k ≠ eyKey) :
    getKey k (coerceYears r) = getKey k r := by
  unfold coerceYears
  cases hv : getKey eyKey r with
  | none => rfl
  | some v =>
      by_cases hs : validYears v
      · simp [hs]
      · simp [hs, getKey_setKey_ne _ _ _ _ h]

theorem getKey_coerceRec_ne (k : Str) (r : JObj) (h : k ≠ recKey) :
    getKey k (coerceRec r) = getKey k r := by
  unfold coerceRec
  cases hv : getKey recKey r with
  | none => rfl
  | some v =>
      by_cases hs : isAllowedRec v = true
      · simp [hs]
      · simp [hs, getKey_setKey_ne _ _ _ _ h]

theorem getKey_coerceArr_ne (k' k : Str) (r : JObj) (h : k ≠ k') :
    getKey k (coerceArr k' r) = getKey k r := by
  unfold coerceArr
  cases hv : getKey k' r with
  | none => simp [getKey_setKey_ne _ _ _ _ h]
  | some v =>
      by_cases hs : isListPy v = true
      · simp [hs]
      · simp [hs, getKey_setKey_ne _ _ _ _ h]

theorem getKey_coerceSummary_ne (k : Str) (r : JObj) (h : k ≠ sumKey) :
    getKey k (coerceSummary r) = getKey k r := by
  unfold coerceSummary
  cases hv : getKey sumKey r with
  | none => simp [getKey_setKey_ne _ _ _ _ h]
  | some v =>
      by_cases hs : isStrPy v = true
      · simp [hs]
      · simp [hs, getKey_setKey_ne _ _ _ _ h]

theorem getKey_foldArr_ne (ks : List Str) (k : Str) (r : JObj) (h : k ∉ ks) :
    getKey k (ks.foldl (fun acc a => coerceArr a acc) r) = getKey k r := by
  induction ks generalizing r with
  | nil => rfl
  | cons a t ih =>
      simp only [List.foldl_cons]
      rw [ih _ (fun hm => h (List.mem_cons_of_mem a hm)),
        getKey_coerceArr_ne a k r (fun he => h (he ▸ List.mem_cons_self a t))]

/-! ### The coerced fields after normalization -/

theorem requiredPresent_getKey {r : JObj} (h : requiredPresent r) :
    ∀ k ∈ requiredKeys, (getKey k r).isSome = true := by
  intro k hk
  unfold requiredPresent findMissing at h
  have := List.find?_eq_none.mp h k hk
  simpa [Option.isNone_iff_eq_none, Option.isSome_iff_ne_none] using this

theorem coerceScore_getKey (r : JObj) (v : JVal) (h : getKey msKey r = some v) :
    (validScore v → coerceScore r = r) ∧
    (¬ validScore v → getKey msKey (coerceScore r) = some (.num 50)) := by
  constructor
  · intro hv
    unfold coerceScore
    rw [h]
    simp [hv]
  · intro hv
    unfold coerceScore
    rw [h]
    simp [hv, getKey_setKey_self]

theorem coerceScore_valid (r : JObj) (v : JVal) (h : getKey msKey r = some v) :
    ∃ w, getKey msKey (coerceScore r) = some w ∧ validScore w := by
  by_cases hv : validScore v
  · exact ⟨v, by rw [(coerceScore_getKey r v h).1 hv]; exact h, hv⟩
  · refine ⟨.num 50, (coerceScore_getKey r v h).2 hv, ?_⟩
    refine ⟨rfl, by norm_num [ratOf], by norm_num [ratOf]⟩

theorem coerceRec_getKey (r : JObj) (v : JVal) (h : getKey recKey r = some v) :
    (isAllowedRec v = true → coerceRec r = r) ∧
    (¬ isAllowedRec v = true →
      getKey recKey (coerceRec r) = some (.str ("review".toList))) := by
  constructor
  · intro hv
    unfold coerceRec
    rw [h]
    simp [hv]
  · intro hv
    unfold coerceRec
    rw [h]
    simp [hv, getKey_setKey_self]

theorem isAllowedRec_mem {v : JVal} (h : isAllowedRec v = true) : v ∈ recValues := by
  unfold isAllowedRec at h
  match v with
  | .str s =>
      simp only [List.append_eq, Bool.or_eq_true, beq_iff_eq] at h
      rcases h with (h | h) | h <;> subst h <;> simp [recValues]

theorem coerceRec_valid (r : JObj) (v : JVal) (h : getKey recKey r = some v) :
    ∃ w, getKey recKey (coerceRec r) = some w ∧ w ∈ recValues := by
  by_cases hv : isAllowedRec v = true
  · exact ⟨v, by rw [(coerceRec_getKey r v h).1 hv]; exact h, isAllowedRec_mem hv⟩
  · exact ⟨.str ("review".toList), (coerceRec_getKey r v h).2 hv, by simp [recValues]⟩

/-! ### The normalizer on objects with all required fields present -/

theorem normalizeParsed_eq (name : Str) (r : JObj) (h : requiredPresent r) :
    normalizeParsed name r =
      coerceSummary (arrKeys.foldl (fun acc k => coerceArr k acc)
        (coerceRec (coerceYears (coerceScore r)))) := by
  unfold requiredPresent at h
  unfold normalizeParsed
  rw [h]

theorem normalizeParsed_missing (name : Str) (r : JObj) (k : Str)
    (h : findMissing r = some k) :
    normalizeParsed name r =
      errorObj (("AI response missing required field: ".toList) ++ k) name := by
  unfold normalizeParsed
  rw [h]

theorem normalizeParsed_score (name : Str) (r : JObj) (h : requiredPresent r) :
    ∃ w, getKey msKey (normalizeParsed name r) = some w ∧ validScore w := by
  have hms := requiredPresent_getKey h msKey (by simp [requiredKeys])
  obtain ⟨v, hv⟩ := Option.isSome_iff_exists.mp hms
  obtain ⟨w, hw, hval⟩ := coerceScore_valid r v hv
  refine ⟨w, ?_, hval⟩
  rw [normalizeParsed_eq name r h,
    getKey_coerceSummary_ne _ _ (by decide),
    getKey_foldArr_ne _ _ _ (by decide),
    getKey_coerceRec_ne _ _ (by decide),
    getKey_coerceYears_ne _ _ (by decide),
    hw]

theorem normalizeParsed_rec (name : Str) (r : JObj) (h : requiredPresent r) :
    ∃ w, getKey recKey (normalizeParsed name r) = some w ∧ w ∈ recValues := by
  have hrc := requiredPresent_getKey h recKey (by simp [requiredKeys])
  obtain ⟨v, hv⟩ := Option.isSome_iff_exists.mp hrc
  have hv' : getKey recKey (coerceYears (coerceScore r)) = some v := by
    rw [getKey_coerceYears_ne _ _ (by decide),
      getKey_coerceScore_ne _ _ (by decide), hv]
  obtain ⟨w, hw, hval⟩ := coerceRec_valid _ v hv'
  refine ⟨w, ?_, hval⟩
  rw [normalizeParsed_eq name r h,
    getKey_coerceSummary_ne _ _ (by decide),
    getKey_foldArr_ne _ _ _ (by decide),
    hw]

theorem normalizeParsed_passthrough (name : Str) (r : JObj) (k : Str)
    (h : requiredPresent r) (hk : k ∉ validatedKeys) :
    getKey k (normalizeParsed name r) = getKey k r := by
  have h1 : k ≠ msKey := fun he => hk (he.symm ▸ (by decide : msKey ∈ validatedKeys))
  have h2 : k ≠ eyKey := fun he => hk (he.symm ▸ (by decide : eyKey ∈ validatedKeys))
  have h3 : k ≠ recKey := fun he => hk (he.symm ▸ (by decide : recKey ∈ validatedKeys))
  have h4 : k ≠ sumKey := fun he => hk (he.symm ▸ (by decide : sumKey ∈ validatedKeys))
  have h5 : k ∉ arrKeys := by
    intro hm
    simp only [arrKeys, List.mem_cons, List.not_mem_nil, or_false] at hm
    rcases hm with h' | h' | h' | h' <;> exact hk (by rw [h']; decide)
  rw [normalizeParsed_eq name r h,
    getKey_coerceSummary_ne _ _ h4,
    getKey_foldArr_ne _ _ _ h5,
    getKey_coerceRec_ne _ _ h3,
    getKey_coerceYears_ne _ _ h2,
    getKey_coerceScore_ne _ _ h1]

/-! ### The error key on the non-success paths -/

theorem getKey_err_errorObj (msg name : Str) :
    getKey errKey (errorObj msg name) = some (.str msg) := rfl

theorem getKey_err_fallback (name : Str) :
    getKey errKey (fallbackResult name) =
      some (.str ("JSON parsing failed, using fallback analysis".toList)) := rfl

/-- A result of `analyze_resume_match` without an `error` key can only come
from the validated parse-success path, so its `match_score` is numeric in
`[0, 100]` and its `recommendation` is one of the three allowed values. -/
theorem analyze_match_noerr (jd res name : Str) (model : Str → ModelReply)
    (parseJson : Str → Option JObj)
    (h : (getKey errKey (analyze_resume_match jd res name model parseJson)).isNone = true) :
    (∃ w, getKey msKey (analyze_resume_match jd res name model parseJson) = some w ∧
       validScore w) ∧
    (∃ w, getKey recKey (analyze_resume_match jd res name model parseJson) = some w ∧
       w ∈ recValues) := by
  by_cases h1 : res.length < 50
  · have ha : analyze_resume_match jd res name model parseJson =
        errorObj ("Resume text too short to analyze".toList) name := by
      unfold analyze_resume_match; rw [if_pos h1]
    rw [ha, getKey_err_errorObj] at h
    simp at h
  by_cases h2 : jd.length < 50
  · have ha : analyze_resume_match jd res name model parseJson =
        errorObj ("Job description too short to analyze".toList) name := by
      unfold analyze_resume_match; rw [if_neg h1, if_pos h2]
    rw [ha, getKey_err_errorObj] at h
    simp at h
  cases hm : model (promptFor jd res name) with
  | apiError m =>
      have ha : analyze_resume_match jd res name model parseJson =
          errorObj (("AI service error: ".toList) ++ m) name := by
        unfold analyze_resume_match; rw [if_neg h1, if_neg h2, hm]
      rw [ha, getKey_err_errorObj] at h
      simp at h
  | ok text =>
      cases hp : parseJson (stripFences (trimStr text)) with
      | none =>
          have ha : analyze_resume_match jd res name model parseJson =
              fallbackResult name := by
            unfold analyze_resume_match
            rw [if_neg h1, if_neg h2, hm]
            simp only [hp]
          rw [ha, getKey_err_fallback] at h
          simp at h
      | some r =>
          have ha : analyze_resume_match jd res name model parseJson =
              normalizeParsed name r := by
            unfold analyze_resume_match
            rw [if_neg h1, if_neg h2, hm]
            simp only [hp]
          rw [ha] at h ⊢
          cases hf : findMissing r with
          | some k =>
              rw [normalizeParsed_missing name r k hf, getKey_err_errorObj] at h
              simp at h
          | none =>
              exact ⟨normalizeParsed_score name r hf, normalizeParsed_rec name r hf⟩

/-- Truncation toward zero of a rational in `[0, 100]` lands in `[0, 100]`. -/
theorem truncQ_bounds {q : ℚ} (h0 : 0 ≤ q) (h1 : q ≤ 100) :
    0 ≤ truncQ q ∧ truncQ q ≤ 100 := by
  unfold truncQ
  rw [if_pos h0]
  constructor
  · exact Int.le_floor.mpr (by exact_mod_cast h0)
  · calc ⌊q⌋ ≤ ⌊(100 : ℚ)⌋ := Int.floor_le_floor h1
      _ = 100 := by norm_num

theorem processFile_effects (jd : Str) (jobId : ℕ) (o : HandlerOracles) (i : ℕ)
    (f : FileUpload) (record : AnalysisRecord)
    (h : DBEffect.insertAnalysis record ∈ (processFile jd jobId o i f).2) :
    0 ≤ record.match_score ∧ record.match_score ≤ 100 ∧
      record.recommendation ∈ recValues := by
  unfold processFile at h
  by_cases hc : f.filename ≠ [] ∧ allowed_file f.filename = true
  · rw [if_pos hc] at h
    cases hx : f.extract with
    | err e => simp only [hx] at h; simp at h
    | ok text =>
        simp only [hx] at h
        cases hi : o.candInsert i with
        | exc m => simp only [hi] at h; simp at h
        | noData => simp only [hi] at h; simp at h
        | ok candId =>
            simp only [hi] at h
            by_cases hg : (getKey errKey (analyze_resume_match jd text
                (candidateNameOf f.filename) o.model o.parseJson)).isNone = true
            · rw [if_pos hg] at h
              simp at h
              obtain ⟨⟨v, hv, hvs⟩, w, hw, hwr⟩ :=
                analyze_match_noerr jd text (candidateNameOf f.filename)
                  o.model o.parseJson hg
              subst h
              unfold mkAnalysisRecord
              rw [hv, hw]
              simp only [Option.getD_some]
              obtain ⟨hb0, hb1⟩ := truncQ_bounds hvs.2.1 hvs.2.2
              exact ⟨hb0, hb1, hwr⟩
            · rw [if_neg hg] at h
              simp at h
  · rw [if_neg hc] at h
    simp at h

theorem processFiles_effects (jd : Str) (jobId : ℕ) (o : HandlerOracles)
    (record : AnalysisRecord) :
    ∀ (i : ℕ) (files : List FileUpload),
      DBEffect.insertAnalysis record ∈ (processFiles jd jobId o i files).2 →
      0 ≤ record.match_score ∧ record.match_score ≤ 100 ∧
        record.recommendation ∈ recValues := by
  intro i files
  induction files generalizing i with
  | nil => intro h; simp [processFiles] at h
  | cons f fs ih =>
      intro h
      simp only [processFiles] at h
      rcases List.mem_append.mp h with h' | h'
      · exact processFile_effects jd jobId o i f record h'
      · exact ih (i + 1) h'

/-- C6: every AnalysisResult record passed to persistence (every
`analysis_results` insert the batch handler attempts) has `match_score` in
`[0, 100]` and `recommendation` among the three enumerated values; the
normalizer guarantees this before persistence is attempted. -/
theorem c6_theorem (req : BatchRequest) (o : HandlerOracles)
    (record : AnalysisRecord)
    (h : DBEffect.insertAnalysis record ∈ (analyze_resumes req o).2) :
    0 ≤ record.match_score ∧ record.match_score ≤ 100 ∧
      record.recommendation ∈ recValues := by
  unfold analyze_resumes at h
  by_cases hv : (falsy req.jobTitle || falsy req.jobDescription) = true
  · rw [if_pos hv] at h
    simp at h
  rw [if_neg hv] at h
  cases hj : o.jobInsert with
  | exc m => simp only [hj] at h; simp at h
  | noData => simp only [hj] at h; simp at h
  | ok jobId =>
      simp only [hj] at h
      by_cases he : req.files.isEmpty = true
      · rw [if_pos he] at h
        simp at h
      · rw [if_neg he] at h
        simp only [List.mem_cons] at h
        rcases h with h | h
        · exact absurd h (by simp)
        · exact processFiles_effects _ jobId o record 0 req.files h

theorem c6_witness :
    DBEffect.insertAnalysis demoRecord ∈ (analyze_resumes demoReq demoOracles).2 ∧
    (0 ≤ demoRecord.match_score ∧ demoRecord.match_score ≤ 100 ∧
      demoRecord.recommendation ∈ recValues) := by
  have he : (analyze_resumes demoReq demoOracles).2 =
      [DBEffect.insertJob,
       DBEffect.insertCandidate (candidateNameOf (("alice_smith.txt").toList))
         (demoText.take 50000),
       DBEffect.insertAnalysis demoRecord] := rfl
  have h : DBEffect.insertAnalysis demoRecord ∈ (analyze_resumes demoReq demoOracles).2 := by
    rw [he]
    exact List.mem_cons_of_mem _ (List.mem_cons_of_mem _ (List.mem_cons_self _ _))
  exact ⟨h, c6_theorem demoReq demoOracles demoRecord h⟩

/-- C7: for a resume text shorter than 50 characters — and, when the resume
passes, for a job description shorter than 50 characters —
`analyze_resume_match` returns the corresponding
`{"error": "... too short ...", "candidate_name": name, "match_score": 0}`
object.  The statement holds for every model and parser oracle and the
result does not mention them, so the model is not consulted. -/
theorem c7_theorem (jd res name : Str) (model : Str → ModelReply)
    (parseJson : Str → Option JObj) :
    (res.length < 50 →
      analyze_resume_match jd res name model parseJson =
        errorObj ("Resume text too short to analyze".toList) name) ∧
    (¬ res.length < 50 → jd.length < 50 →
      analyze_resume_match jd res name model parseJson =
        errorObj ("Job description too short to analyze".toList) name) := by
  constructor
  · intro h1
    unfold analyze_resume_match
    rw [if_pos h1]
  · intro h1 h2
    unfold analyze_resume_match
    rw [if_neg h1, if_pos h2]

theorem c7_witness :
    (List.replicate 40 'x').length < 50 ∧
    analyze_resume_match [] (List.replicate 40 'x') ("Alice".toList)
        (fun _ => .ok []) (fun _ => none) =
      errorObj ("Resume text too short to analyze".toList) ("Alice".toList) := by
  have h : (List.replicate 40 'x').length < 50 := by simp
  exact ⟨h, (c7_theorem [] (List.replicate 40 'x') ("Alice".toList)
    (fun _ => .ok []) (fun _ => none)).1 h⟩

/-- C8: before prompt construction, a resume text longer than 15000
characters is embedded as exactly its first 15000 characters followed by
`"..."` (and has length 15003); a job description longer than 8000
characters is cut to 8000 plus the marker; texts at or below the cap are
embedded unchanged; and the prompt sent to the model embeds exactly the
truncated texts. -/
theorem c8_theorem (jd res name : Str) :
    (res.length > 15000 →
      truncResume res = res.take 15000 ++ ("...".toList) ∧
      (truncResume res).length = 15003) ∧
    (¬ res.length > 15000 → truncResume res = res) ∧
    (jd.length > 8000 →
      truncJob jd = jd.take 8000 ++ ("...".toList) ∧
      (truncJob jd).length = 8003) ∧
    (¬ jd.length > 8000 → truncJob jd = jd) ∧
    promptFor jd res name =
      promptHead ++ truncJob jd ++ promptMid ++ truncResume res ++
        promptTail1 ++ name ++ promptTail2 := by
  refine ⟨?_, ?_, ?_, ?_, rfl⟩
  · intro h
    refine ⟨by unfold truncResume; rw [if_pos h], ?_⟩
    unfold truncResume
    rw [if_pos h]
    simp only [List.length_append, List.length_take,
      show (("...").toList).length = 3 from rfl]
    omega
  · intro h
    unfold truncResume
    rw [if_neg h]
  · intro h
    refine ⟨by unfold truncJob; rw [if_pos h], ?_⟩
    unfold truncJob
    rw [if_pos h]
    simp only [List.length_append, List.length_take,
      show (("...").toList).length = 3 from rfl]
    omega
  · intro h
    unfold truncJob
    rw [if_neg h]

theorem c8_witness :
    (List.replicate 15001 'a').length > 15000 ∧
    (truncResume (List.replicate 15001 'a') =
      (List.replicate 15001 'a').take 15000 ++ ("...".toList) ∧
    (truncResume (List.replicate 15001 'a')).length = 15003) := by
  have h : (List.replicate 15001 'a').length > 15000 := by
    rw [List.length_replicate]
    norm_num
  exact ⟨h, (c8_theorem [] (List.replicate 15001 'a') []).1 h⟩

theorem mem_isAllowedRec {v : JVal} (h : v ∈ recValues) : isAllowedRec v = true := by
  simp only [recValues, List.mem_cons, List.not_mem_nil, or_false] at h
  rcases h with h | h | h <;> subst h <;> decide

/-- C1 is false as stated: on the parse-success path with all required
fields present, the normalizer keeps the model-produced candidate_name
("Bob") instead of the caller-supplied name ("Alice"). -/
theorem c1_counterexample :
    getKey cnKey (normalizeParsed ("Alice".toList) c1obj) =
      some (.str ("Bob".toList)) ∧
    some (JVal.str ("Bob".toList)) ≠ some (JVal.str ("Alice".toList)) := by
  refine ⟨rfl, ?_⟩
  intro h
  rw [Option.some.injEq, JVal.str.injEq] at h
  exact absurd h (by decide)

/-- C1 (amended): the parse-success path never writes the caller-supplied
name into the result: when all required fields are present the
candidate_name binding is exactly what the model produced (absent if the
model omitted it); only the missing-required-field error result carries
the caller's name. -/
theorem c1_theorem (name : Str) (r : JObj) :
    (requiredPresent r →
      getKey cnKey (normalizeParsed name r) = getKey cnKey r) ∧
    (∀ k, findMissing r = some k →
      getKey cnKey (normalizeParsed name r) = some (.str name)) := by
  constructor
  · intro h
    exact normalizeParsed_passthrough name r cnKey h (by decide)
  · intro k hk
    rw [normalizeParsed_missing name r k hk]
    rfl

theorem c1_witness :
    requiredPresent c1obj ∧
    getKey cnKey (normalizeParsed ("Carol".toList) c1obj) = getKey cnKey c1obj := by
  have h : requiredPresent c1obj := by decide
  exact ⟨h, (c1_theorem ("Carol".toList) c1obj).1 h⟩

/-- C2 is false as stated: the fallback object's summary reads
"Analysis completed but detailed parsing failed" (main.py line 250), not
"Analysis completed but parsing failed" as claimed. -/
theorem c2_counterexample :
    getKey sumKey (analyze_resume_match demoJD demoText ("Alice".toList)
        (fun _ => .ok ("not json".toList)) (fun _ => none)) =
      some (.str ("Analysis completed but detailed parsing failed".toList)) ∧
    ("Analysis completed but detailed parsing failed".toList) ≠
      ("Analysis completed but parsing failed".toList) :=
  ⟨rfl, by decide⟩

/-- C2 (amended): whenever the guards pass and the fence-stripped model
reply fails to parse as JSON, the result is exactly the fallback object of
main.py lines 241-252 — match_score 50, experience_years 0, empty
matching/missing skills, strengths ["Analysis completed"], weaknesses
["Unable to parse detailed analysis"], recommendation "review", summary
"Analysis completed but detailed parsing failed", error "JSON parsing
failed, using fallback analysis" — with candidate_name the caller-supplied
name. -/
theorem c2_theorem (jd res name text : Str) (model : Str → ModelReply)
    (parseJson : Str → Option JObj)
    (h1 : ¬ res.length < 50) (h2 : ¬ jd.length < 50)
    (h3 : model (promptFor jd res name) = .ok text)
    (h4 : parseJson (stripFences (trimStr text)) = none) :
    analyze_resume_match jd res name model parseJson = fallbackResult name := by
  unfold analyze_resume_match
  rw [if_neg h1, if_neg h2, h3]
  simp only [h4]

theorem c2_witness :
    ¬ demoText.length < 50 ∧ ¬ demoJD.length < 50 ∧
    analyze_resume_match demoJD demoText ("Alice".toList)
        (fun _ => .ok ("nope".toList)) (fun _ => none) =
      fallbackResult ("Alice".toList) := by
  refine ⟨by decide, by decide, ?_⟩
  exact c2_theorem demoJD demoText ("Alice".toList) ("nope".toList)
    (fun _ => .ok ("nope".toList)) (fun _ => none)
    (by decide) (by decide) rfl rfl

/-- C3 is false as stated: a parsed object with no recommendation field is
not given the default "review" — the required-field check replaces the
whole result by an error object that has no recommendation key at all, so
one absent field does fail the whole result. -/
theorem c3_counterexample :
    getKey recKey (normalizeParsed ("Alice".toList) c3obj) = none ∧
    normalizeParsed ("Alice".toList) c3obj =
      errorObj (("AI response missing required field: ".toList) ++ recKey)
        ("Alice".toList) :=
  ⟨rfl, rfl⟩

/-- C3 (amended): when the parsed object contains all three required
fields, the fields are coerced independently; in particular a present
recommendation value v is kept iff v ∈ {qualified, review, not_qualified}
and replaced by "review" otherwise, whatever the other fields hold.  An
object missing a required field is instead replaced wholesale by the
missing-field error object. -/
theorem c3_theorem (name : Str) (r : JObj) (v : JVal)
    (hreq : requiredPresent r) (hv : getKey recKey r = some v) :
    (v ∈ recValues → getKey recKey (normalizeParsed name r) = some v) ∧
    (v ∉ recValues → getKey recKey (normalizeParsed name r) =
      some (.str ("review".toList))) := by
  have hv' : getKey recKey (coerceYears (coerceScore r)) = some v := by
    rw [getKey_coerceYears_ne _ _ (by decide),
      getKey_coerceScore_ne _ _ (by decide), hv]
  constructor
  · intro hmem
    rw [normalizeParsed_eq name r hreq,
      getKey_coerceSummary_ne _ _ (by decide),
      getKey_foldArr_ne _ _ _ (by decide),
      (coerceRec_getKey _ v hv').1 (mem_isAllowedRec hmem)]
    exact hv'
  · intro hmem
    rw [normalizeParsed_eq name r hreq,
      getKey_coerceSummary_ne _ _ (by decide),
      getKey_foldArr_ne _ _ _ (by decide)]
    exact (coerceRec_getKey _ v hv').2 (fun hall => hmem (isAllowedRec_mem hall))

theorem c3_witness :
    requiredPresent c3wobj ∧
    getKey recKey c3wobj = some (.str ("banana".toList)) ∧
    (((.str ("banana".toList) : JVal) ∈ recValues →
      getKey recKey (normalizeParsed ("Alice".toList) c3wobj) =
        some (.str ("banana".toList))) ∧
    ((.str ("banana".toList) : JVal) ∉ recValues →
      getKey recKey (normalizeParsed ("Alice".toList) c3wobj) =
        some (.str ("review".toList)))) := by
  have h1 : requiredPresent c3wobj := by decide
  have h2 : getKey recKey c3wobj = some (.str ("banana".toList)) := rfl
  exact ⟨h1, h2, c3_theorem ("Alice".toList) c3wobj _ h1 h2⟩

/-- C5 is false as stated: a reply parsing to a JSON object that contains
the valid match_score 75 but lacks the other required fields yields
neither 75 nor 50 — the required-field check replaces the whole result by
an error object whose match_score is 0. -/
theorem c5_counterexample :
    validScore (.num 75) ∧
    getKey msKey (normalizeParsed ("Alice".toList) c5obj) = some (.num 0) ∧
    some (JVal.num 0) ≠ some (JVal.num 75) ∧
    some (JVal.num 0) ≠ some (JVal.num 50) := by
  refine ⟨by decide, rfl, ?_, ?_⟩ <;> intro h <;>
    rw [Option.some.injEq, JVal.num.injEq] at h <;> exact absurd h (by norm_num)

/-- C5 (amended): for a parsed object containing all three required
fields, with match_score value s: the result keeps s iff s passes the
Python numeric check (`isinstance(s, (int, float))`, which includes
booleans) and lies within [0, 100]; otherwise the result's match_score is
exactly 50. -/
theorem c5_theorem (name : Str) (r : JObj) (s : JVal)
    (hreq : requiredPresent r) (hs : getKey msKey r = some s) :
    (validScore s → getKey msKey (normalizeParsed name r) = some s) ∧
    (¬ validScore s → getKey msKey (normalizeParsed name r) = some (.num 50)) := by
  constructor
  · intro hval
    rw [normalizeParsed_eq name r hreq,
      getKey_coerceSummary_ne _ _ (by decide),
      getKey_foldArr_ne _ _ _ (by decide),
      getKey_coerceRec_ne _ _ (by decide),
      getKey_coerceYears_ne _ _ (by decide),
      (coerceScore_getKey r s hs).1 hval]
    exact hs
  · intro hval
    rw [normalizeParsed_eq name r hreq,
      getKey_coerceSummary_ne _ _ (by decide),
      getKey_foldArr_ne _ _ _ (by decide),
      getKey_coerceRec_ne _ _ (by decide),
      getKey_coerceYears_ne _ _ (by decide)]
    exact (coerceScore_getKey r s hs).2 hval

theorem c5_witness :
    requiredPresent c5wobj ∧
    getKey msKey c5wobj = some (.num 88) ∧
    ((validScore (.num 88) →
      getKey msKey (normalizeParsed ("Alice".toList) c5wobj) = some (.num 88)) ∧
    (¬ validScore (.num 88) →
      getKey msKey (normalizeParsed ("Alice".toList) c5wobj) = some (.num 50))) := by
  have h1 : requiredPresent c5wobj := by decide
  have h2 : getKey msKey c5wobj = some (.num 88) := rfl
  exact ⟨h1, h2, c5_theorem ("Alice".toList) c5wobj _ h1 h2⟩

/-- C10 is false as stated: an extra key of a parsed object that lacks the
required fields does not reach the result — the whole object is replaced
by the missing-field error object, which drops it. -/
theorem c10_counterexample :
    getKey ("notes".toList) (normalizeParsed ("Alice".toList) c10obj) = none ∧
    getKey ("notes".toList) c10obj = some (.str ("keep me".toList)) ∧
    (none : Option JVal) ≠ some (.str ("keep me".toList)) := by
  refine ⟨rfl, rfl, by simp⟩

/-- C10 (amended): for a parsed object containing the three required
fields, every key other than the eight validated ones (match_score,
experience_years, recommendation, matching_skills, missing_skills,
strengths, weaknesses, summary) is passed through to the result unchanged
— in particular neither removed nor modified. -/
theorem c10_theorem (name : Str) (r : JObj) (k : Str)
    (hreq : requiredPresent r) (hk : k ∉ validatedKeys) :
    getKey k (normalizeParsed name r) = getKey k r :=
  normalizeParsed_passthrough name r k hreq hk

theorem c10_witness :
    requiredPresent c10wobj ∧ (("notes".toList) ∉ validatedKeys) ∧
    getKey ("notes".toList) (normalizeParsed ("Alice".toList) c10wobj) =
      getKey ("notes".toList) c10wobj := by
  have h1 : requiredPresent c10wobj := by decide
  have h2 : ("notes".toList) ∉ validatedKeys := by decide
  exact ⟨h1, h2, c10_theorem ("Alice".toList) c10wobj _ h1 h2⟩

/-- C4 is false as stated: a request with both form fields present but no
files is rejected with 400 only after the job record has been created —
this concrete run returns the 400 response with the job insert already
performed (a nonempty effect list). -/
theorem c4_counterexample :
    analyze_resumes c4req demoOracles =
      (.badRequest ("No resume files uploaded".toList), [DBEffect.insertJob]) ∧
    ([DBEffect.insertJob] : List DBEffect) ≠ [] :=
  ⟨rfl, by simp⟩

/-- C4 (amended): the 400 for a missing jobTitle or jobDescription is
issued before the job record is created, with no database write; the 400
for an empty file list is issued only after the job record insert has
succeeded. -/
theorem c4_theorem (req : BatchRequest) (o : HandlerOracles) :
    ((falsy req.jobTitle || falsy req.jobDescription) = true →
      analyze_resumes req o =
        (.badRequest ("Missing job title or description".toList), [])) ∧
    (∀ jobId, (falsy req.jobTitle || falsy req.jobDescription) = false →
      o.jobInsert = .ok jobId → req.files.isEmpty = true →
      analyze_resumes req o =
        (.badRequest ("No resume files uploaded".toList), [DBEffect.insertJob])) := by
  constructor
  · intro h
    unfold analyze_resumes
    rw [if_pos h]
  · intro jobId h1 h2 h3
    unfold analyze_resumes
    rw [if_neg (by simp [h1])]
    simp only [h2]
    rw [if_pos h3]

theorem c4_witness :
    (falsy c4req.jobTitle || falsy c4req.jobDescription) = false ∧
    demoOracles.jobInsert = .ok 7 ∧ c4req.files.isEmpty = true ∧
    analyze_resumes c4req demoOracles =
      (.badRequest ("No resume files uploaded".toList), [DBEffect.insertJob]) := by
  refine ⟨by decide, rfl, rfl, ?_⟩
  exact (c4_theorem c4req demoOracles).2 7 (by decide) rfl rfl

theorem sortDesc_perm (l : List JObj) : (sortDesc l).Perm l :=
  List.perm_insertionSort _ l

theorem sortDesc_sorted (l : List JObj) :
    (sortDesc l).Pairwise (fun a b => sortKey b ≤ sortKey a) := by
  haveI : IsTotal JObj (fun a b => sortKey b ≤ sortKey a) := ⟨fun a b => le_total _ _⟩
  haveI : IsTrans JObj (fun a b => sortKey b ≤ sortKey a) :=
    ⟨fun _ _ _ h1 h2 => le_trans h2 h1⟩
  exact List.sorted_insertionSort _ l

theorem filter_orderedInsert (q : ℚ) (x : JObj) (l : List JObj) :
    (List.orderedInsert (fun a b => sortKey b ≤ sortKey a) x l).filter
        (fun e => decide (sortKey e = q)) =
      ((x :: l).filter (fun e => decide (sortKey e = q))) := by
  induction l with
  | nil => rfl
  | cons y ys ih =>
      by_cases hxy : sortKey y ≤ sortKey x
      · simp [List.orderedInsert, hxy]
      · have hlt : sortKey x < sortKey y := lt_of_not_le hxy
        have hins : List.orderedInsert (fun a b => sortKey b ≤ sortKey a) x (y :: ys) =
            y :: List.orderedInsert (fun a b => sortKey b ≤ sortKey a) x ys := by
          simp [List.orderedInsert, hxy]
        rw [hins]
        by_cases hq : sortKey x = q
        · have hyq : ¬ sortKey y = q := fun he => (ne_of_gt hlt) (he.trans hq.symm)
          simp only [List.filter_cons, ih]
          simp [hq, hyq]
        · simp only [List.filter_cons, ih]
          simp [hq]

theorem filter_sortDesc (q : ℚ) (l : List JObj) :
    (sortDesc l).filter (fun e => decide (sortKey e = q)) =
      l.filter (fun e => decide (sortKey e = q)) := by
  induction l with
  | nil => rfl
  | cons x xs ih =>
      have h1 : sortDesc (x :: xs) =
          List.orderedInsert (fun a b => sortKey b ≤ sortKey a) x (sortDesc xs) := rfl
      rw [h1, filter_orderedInsert]
      simp only [List.filter_cons, ih]

/-- C9: the results list of the 200 response is exactly `sortDesc` of the
per-file entries, and `sortDesc` sorts by match_score descending with the
stable tie-break: it is a permutation of the entries, it is pairwise
descending by sort key, entries of any fixed key value keep their original
relative order (the filter at each key value is unchanged), and an entry
with no match_score key sorts as score 0. -/
theorem c9_theorem (req : BatchRequest) (o : HandlerOracles) (jobId : ℕ) :
    (∀ jobTitle total results effects,
      analyze_resumes req o = (.ok jobId jobTitle total results, effects) →
      results = sortDesc (batchEntries req o jobId)) ∧
    (sortDesc (batchEntries req o jobId)).Perm (batchEntries req o jobId) ∧
    (sortDesc (batchEntries req o jobId)).Pairwise
      (fun a b => sortKey b ≤ sortKey a) ∧
    (∀ q : ℚ,
      (sortDesc (batchEntries req o jobId)).filter (fun e => decide (sortKey e = q)) =
        (batchEntries req o jobId).filter (fun e => decide (sortKey e = q))) ∧
    (∀ e : JObj, getKey msKey e = none → sortKey e = 0) := by
  refine ⟨?_, sortDesc_perm _, sortDesc_sorted _, fun q => filter_sortDesc q _, ?_⟩
  · intro jobTitle total results effects h
    unfold analyze_resumes at h
    by_cases hv : (falsy req.jobTitle || falsy req.jobDescription) = true
    · rw [if_pos hv] at h
      simp at h
    rw [if_neg hv] at h
    cases hj : o.jobInsert with
    | exc m => simp only [hj] at h; simp at h
    | noData => simp only [hj] at h; simp at h
    | ok jobId' =>
        simp only [hj] at h
        by_cases he : req.files.isEmpty = true
        · rw [if_pos he] at h
          simp at h
        · rw [if_neg he] at h
          rw [Prod.mk.injEq] at h
          obtain ⟨h1, h2⟩ := h
          injection h1 with hji hjt hjn hjr
          subst hji
          exact hjr.symm
  · intro e he
    unfold sortKey
    rw [he]
    rfl

theorem c9_witness :
    analyze_resumes demoReq demoOracles =
      (.ok 7 ("Engineer".toList) 1 (sortDesc (batchEntries demoReq demoOracles 7)),
       [DBEffect.insertJob,
        DBEffect.insertCandidate (candidateNameOf (("alice_smith.txt").toList))
          (demoText.take 50000),
        DBEffect.insertAnalysis demoRecord]) ∧
    sortDesc (batchEntries demoReq demoOracles 7) =
      sortDesc (batchEntries demoReq demoOracles 7) ∧
    (getKey msKey ([] : JObj) = none ∧ sortKey ([] : JObj) = 0) := by
  have hrun : analyze_resumes demoReq demoOracles =
      (.ok 7 ("Engineer".toList) 1 (sortDesc (batchEntries demoReq demoOracles 7)),
       [DBEffect.insertJob,
        DBEffect.insertCandidate (candidateNameOf (("alice_smith.txt").toList))
          (demoText.take 50000),
        DBEffect.insertAnalysis demoRecord]) := rfl
  exact ⟨hrun, (c9_theorem demoReq demoOracles 7).1 _ _ _ _ hrun,
    rfl, (c9_theorem demoReq demoOracles 7).2.2.2.2 [] rfl⟩
